import Mathlib

/-!
Shallow embedding of the Srader dashboard's sensor-state engine
(`src/main.py`, class `SraderDashboard`), together with proofs about its
tilt random walk, obstacle field simulation, person-obstacle injection and
safety-status derivation.

Python floats are modelled as exact rationals (for the purely arithmetic
parts: tilt walk, per-pixel step, clamping, thresholds) or reals (for the
Gaussian person profile, which uses `math.exp`).  Python `int()` truncation
is modelled by `pyInt`.  Randomness is made explicit: every `random.*`
draw of a tick is a field of a draw structure handed to the tick function.
-/

namespace Srader

/-- The three values the status label can take (`main.py` lines 461-470):
`SYSTEM OK`, `TILT WARNING`, `!!! OBSTACLE DETECTED !!!`. -/
inductive SafetyStatus
  | Ok
  | TiltWarning
  | ObstacleCritical
  deriving DecidableEq

/-- The 5-sensor x 8-pixel obstacle distance matrix
(`self._last_sim_distances`, line 369).  Cells are rationals because the
per-pixel step stores Python floats. -/
abbrev Field := Fin 5 → Fin 8 → ℚ

/-- The simulation state held on the dashboard object:
`_last_sim_angle` (line 367) and `_last_sim_distances` (line 369). -/
structure SimState where
  angle : ℚ
  field : Field

/-- Initial state from `__init__`: angle `0.0`, all 40 cells `4000`. -/
def initState : SimState :=
  { angle := 0, field := fun _ _ => 4000 }

/-- Safety status derivation, `simulate_data` lines 462-470:
`if min_dist < 300` then obstacle, `elif abs(angle) > 15` then tilt,
else ok.  (`OBSTACLE_DIST_CRITICAL = 300`, `TILT_ANGLE_WARNING = 15`.) -/
def deriveStatus (angle obstacleMin : ℚ) : SafetyStatus :=
  if obstacleMin < 300 then SafetyStatus.ObstacleCritical
  else if 15 < |angle| then SafetyStatus.TiltWarning
  else SafetyStatus.Ok

/-- One tilt update, `simulate_data` lines 409-413: add the perturbation
`step = (random.random() - 0.5) * 4`, and if the result leaves the open
interval (-30, 30), subtract `2 * step` (reflect once). -/
def tiltStep (step angle : ℚ) : ℚ :=
  if -30 < angle + step ∧ angle + step < 30 then angle + step
  else angle + step - 2 * step

/-- Iterated tilt updates for a list of perturbation draws. -/
def tiltRun (steps : List ℚ) (angle : ℚ) : ℚ :=
  steps.foldl (fun a s => tiltStep s a) angle

/-- Per-pixel clamp, line 436: `max(50, min(4000, d))`. -/
def clampDist (d : ℚ) : ℚ := max 50 (min 4000 d)

/-- The random draws one sensor consumes in one tick of `simulate_data`
(lines 429-445): eight per-pixel perturbations
`(random.random() - 0.5) * 100`, the spike-probability draw
`random.random()` compared against `0.02`, the spiked pixel
`random.randint(0, 7)`, and the two possible replacement values
`random.randint(50, 299)` / `random.randint(1500, 4000)`. -/
structure SensorDraw where
  steps : Fin 8 → ℚ
  spikeP : ℚ
  spikePix : Fin 8
  spikeNear : ℤ
  spikeFar : ℤ

/-- Per-pixel random step with clamping, lines 431-436. -/
def stepSensor (d : SensorDraw) (row : Fin 8 → ℚ) : Fin 8 → ℚ :=
  fun j => clampDist (row j + d.steps j)

/-- Spike event for one sensor, lines 439-445: with probability 0.02 pick
one of this sensor's 8 pixels; if its (post-step) value exceeds 1000
reassign it to the near draw, else to the far draw. -/
def spikeSensor (d : SensorDraw) (row : Fin 8 → ℚ) : Fin 8 → ℚ :=
  if d.spikeP < 1 / 50 then
    Function.update row d.spikePix
      (if 1000 < row d.spikePix then (d.spikeNear : ℚ) else (d.spikeFar : ℚ))
  else row

/-- The complete per-sensor update of one tick: steps then spike. -/
def sensorTick (d : SensorDraw) (row : Fin 8 → ℚ) : Fin 8 → ℚ :=
  spikeSensor d (stepSensor d row)

/-- The obstacle part of one tick (lines 429-445): each of the 5 sensors
is stepped and then independently, with probability 0.02, spiked. -/
def obstacleStep (ds : Fin 5 → SensorDraw) (f : Field) : Field :=
  fun i => sensorTick (ds i) (f i)

/-- Python `int()` truncation toward zero on a real value. -/
noncomputable def pyInt (x : ℝ) : ℤ :=
  if 0 ≤ x then ⌊x⌋ else ⌈x⌉

/-- One pixel of the Gaussian person profile,
`simulate_person_obstacle` lines 398-401:
`exponent = -((j - 3.5)^2) / (2 * w^2)`;
`dist = c + (4000 - c) * (1 - exp(exponent))`; stored as `int(dist)`. -/
noncomputable def personPixel (c : ℤ) (w : ℝ) (j : ℕ) : ℤ :=
  pyInt ((c : ℝ) + ((4000 : ℝ) - (c : ℝ)) *
    (1 - Real.exp (-(((j : ℝ) - 3.5) ^ 2) / (2 * w ^ 2))))

/-- The random draws of the person event, lines 448-451:
`random.random()` compared against `0.1`, `random.randint(0, 4)`,
`random.randint(400, 1200)`, `random.uniform(1.5, 2.5)`. -/
structure PersonDraw where
  personP : ℚ
  target : Fin 5
  dist : ℤ
  width : ℝ

/-- The person event of one tick (lines 448-452): with probability 0.1
overwrite all 8 pixels of one sensor with the Gaussian profile. -/
noncomputable def applyPerson (d : PersonDraw) (f : Field) : Field :=
  if d.personP < 1 / 10 then
    Function.update f d.target (fun j => ((personPixel d.dist d.width j : ℤ) : ℚ))
  else f

/-- All random draws one call of `simulate_data` consumes. -/
structure TickDraws where
  angleStep : ℚ
  sensors : Fin 5 → SensorDraw
  person : PersonDraw

/-- One full simulation tick, `simulate_data` lines 405-452: tilt step,
then per-sensor steps and spikes, then the optional person injection. -/
noncomputable def simTick (d : TickDraws) (st : SimState) : SimState :=
  { angle := tiltStep d.angleStep st.angle
    field := applyPerson d.person (obstacleStep d.sensors st.field) }

/-- Run a list of ticks. -/
noncomputable def simRun (ds : List TickDraws) (st : SimState) : SimState :=
  ds.foldl (fun s d => simTick d s) st

/-- The sequence of states observed after each tick of a run. -/
noncomputable def simTrace : List TickDraws → SimState → List SimState
  | [], _ => []
  | d :: rest, st => simTick d st :: simTrace rest (simTick d st)

/-- All 40 cells lie in the physical range [50, 4000]. -/
def FieldInRange (f : Field) : Prop :=
  ∀ (i : Fin 5) (j : Fin 8), 50 ≤ f i j ∧ f i j ≤ 4000

/-- The ranges the code's `randint` calls guarantee for a tick's draws:
spike replacements in [50, 299] / [1500, 4000] (lines 443, 445) and the
person distance in [400, 1200] (line 450). -/
def TickDrawsOK (d : TickDraws) : Prop :=
  (∀ i : Fin 5, 50 ≤ (d.sensors i).spikeNear ∧ (d.sensors i).spikeNear ≤ 299 ∧
    1500 ≤ (d.sensors i).spikeFar ∧ (d.sensors i).spikeFar ≤ 4000) ∧
  400 ≤ d.person.dist ∧ d.person.dist ≤ 1200

/- ------------------------------------------------------------------ -/
/- Helper lemmas                                                       -/
/- ------------------------------------------------------------------ -/

theorem tiltStep_mem {s a : ℚ} (hs1 : -2 ≤ s) (hs2 : s ≤ 2)
    (ha1 : -30 < a) (ha2 : a < 30) :
    -30 < tiltStep s a ∧ tiltStep s a < 30 := by
  unfold tiltStep
  split
  · next h => exact h
  · next h =>
      rcases not_and_or.mp h with h1 | h1
      · push_neg at h1
        constructor <;> linarith
      · push_neg at h1
        constructor <;> linarith

theorem tiltRun_mem (steps : List ℚ) (a : ℚ)
    (hs : ∀ s ∈ steps, -2 ≤ s ∧ s ≤ 2) (ha1 : -30 < a) (ha2 : a < 30) :
    -30 < tiltRun steps a ∧ tiltRun steps a < 30 := by
  induction steps generalizing a with
  | nil => exact ⟨ha1, ha2⟩
  | cons s rest ih =>
      have hstep := tiltStep_mem (hs s (by simp)).1 (hs s (by simp)).2 ha1 ha2
      have : tiltRun (s :: rest) a = tiltRun rest (tiltStep s a) := rfl
      rw [this]
      exact ih (tiltStep s a) (fun t ht => hs t (by simp [ht])) hstep.1 hstep.2

/- ------------------------------------------------------------------ -/
/- C1: safety status priority                                          -/
/- ------------------------------------------------------------------ -/

/-- C1: the safety status is a pure priority reduction: obstacle minimum
below 300 gives ObstacleCritical regardless of the tilt angle; otherwise
a tilt magnitude above 15 gives TiltWarning; otherwise Ok.  In
particular (m=250, a=20) is ObstacleCritical, (m=2000, a=20) is
TiltWarning, and (m=2000, a=3) is Ok. -/
theorem deriveStatus_priority (a m : ℚ) :
    (m < 300 → deriveStatus a m = SafetyStatus.ObstacleCritical) ∧
    (¬ m < 300 → 15 < |a| → deriveStatus a m = SafetyStatus.TiltWarning) ∧
    (¬ m < 300 → ¬ 15 < |a| → deriveStatus a m = SafetyStatus.Ok) ∧
    deriveStatus 20 250 = SafetyStatus.ObstacleCritical ∧
    deriveStatus 20 2000 = SafetyStatus.TiltWarning ∧
    deriveStatus 3 2000 = SafetyStatus.Ok := by
  refine ⟨?_, ?_, ?_, by decide, by decide, by decide⟩
  · intro h
    simp [deriveStatus, h]
  · intro h1 h2
    simp [deriveStatus, h1, h2]
  · intro h1 h2
    simp [deriveStatus, h1, h2]

theorem deriveStatus_priority_witness :
    deriveStatus 7 100 = SafetyStatus.ObstacleCritical ∧
    deriveStatus 20 500 = SafetyStatus.TiltWarning ∧
    deriveStatus 3 500 = SafetyStatus.Ok :=
  ⟨(deriveStatus_priority 7 100).1 (by decide),
   (deriveStatus_priority 20 500).2.1 (by decide) (by decide),
   (deriveStatus_priority 3 500).2.2.1 (by decide) (by decide)⟩

/- ------------------------------------------------------------------ -/
/- C2: tilt angle containment                                          -/
/- ------------------------------------------------------------------ -/

/-- C2: starting from angle 0, with every perturbation in [-2, 2] and the
reflect-once rule of lines 409-413, the tilt angle is strictly inside
(-30, 30) after every tick (every run of draws, hence every prefix). -/
theorem tilt_angle_contained (steps : List ℚ)
    (hs : ∀ s ∈ steps, -2 ≤ s ∧ s ≤ 2) :
    -30 < tiltRun steps 0 ∧ tiltRun steps 0 < 30 :=
  tiltRun_mem steps 0 hs (by norm_num) (by norm_num)

theorem tilt_angle_contained_witness :
    -30 < tiltRun [2, 2, -1, 2, 2] 0 ∧ tiltRun [2, 2, -1, 2, 2] 0 < 30 :=
  tilt_angle_contained [2, 2, -1, 2, 2] (by decide)

/- ------------------------------------------------------------------ -/
/- Range lemmas for the obstacle field                                 -/
/- ------------------------------------------------------------------ -/

theorem clampDist_mem (d : ℚ) : 50 ≤ clampDist d ∧ clampDist d ≤ 4000 := by
  unfold clampDist
  exact ⟨le_max_left _ _, max_le (by norm_num) (min_le_left _ _)⟩

theorem stepSensor_mem (d : SensorDraw) (row : Fin 8 → ℚ) (j : Fin 8) :
    50 ≤ stepSensor d row j ∧ stepSensor d row j ≤ 4000 :=
  clampDist_mem _

theorem spikeSensor_mem (d : SensorDraw) (row : Fin 8 → ℚ)
    (hn : 50 ≤ d.spikeNear ∧ d.spikeNear ≤ 299)
    (hf : 1500 ≤ d.spikeFar ∧ d.spikeFar ≤ 4000)
    (hrow : ∀ j, 50 ≤ row j ∧ row j ≤ 4000) (j : Fin 8) :
    50 ≤ spikeSensor d row j ∧ spikeSensor d row j ≤ 4000 := by
  unfold spikeSensor
  split
  · rcases eq_or_ne j d.spikePix with rfl | hne
    · rw [Function.update_same]
      split
      · constructor
        · exact_mod_cast hn.1
        · have : d.spikeNear ≤ 4000 := le_trans hn.2 (by norm_num)
          exact_mod_cast this
      · constructor
        · have : (50 : ℤ) ≤ d.spikeFar := le_trans (by norm_num) hf.1
          exact_mod_cast this
        · exact_mod_cast hf.2
    · rw [Function.update_noteq hne]
      exact hrow j
  · exact hrow j

theorem sensorTick_mem (d : SensorDraw) (row : Fin 8 → ℚ)
    (hn : 50 ≤ d.spikeNear ∧ d.spikeNear ≤ 299)
    (hf : 1500 ≤ d.spikeFar ∧ d.spikeFar ≤ 4000) (j : Fin 8) :
    50 ≤ sensorTick d row j ∧ sensorTick d row j ≤ 4000 :=
  spikeSensor_mem d _ hn hf (stepSensor_mem d row) j

theorem pyInt_eq_floor {x : ℝ} (h : 0 ≤ x) : pyInt x = ⌊x⌋ := by
  unfold pyInt
  exact if_pos h

theorem personPixel_bounds (c : ℤ) (w : ℝ) (j : ℕ)
    (h0 : 0 ≤ c) (hc : c ≤ 4000) :
    c ≤ personPixel c w j ∧ personPixel c w j ≤ 4000 := by
  set t : ℝ := -(((j : ℝ) - 3.5) ^ 2) / (2 * w ^ 2) with ht
  have htle : t ≤ 0 := by
    apply div_nonpos_of_nonpos_of_nonneg
    · exact neg_nonpos.mpr (sq_nonneg _)
    · positivity
  have he1 : Real.exp t ≤ 1 := Real.exp_le_one_iff.mpr htle
  have he0 : 0 < Real.exp t := Real.exp_pos t
  have hc' : (c : ℝ) ≤ 4000 := by exact_mod_cast hc
  have h0' : (0 : ℝ) ≤ (c : ℝ) := by exact_mod_cast h0
  set D : ℝ := (c : ℝ) + ((4000 : ℝ) - (c : ℝ)) * (1 - Real.exp t) with hD
  have hcD : (c : ℝ) ≤ D := by
    have : 0 ≤ ((4000 : ℝ) - (c : ℝ)) * (1 - Real.exp t) :=
      mul_nonneg (by linarith) (by linarith)
    linarith [this]
  have hD4 : D ≤ 4000 := by
    have : ((4000 : ℝ) - (c : ℝ)) * (1 - Real.exp t) ≤ ((4000 : ℝ) - (c : ℝ)) * 1 :=
      mul_le_mul_of_nonneg_left (by linarith) (by linarith)
    nlinarith [this]
  have hppD : personPixel c w j = ⌊D⌋ := by
    unfold personPixel
    rw [← ht, ← hD]
    exact pyInt_eq_floor (by linarith)
  constructor
  · rw [hppD]
    exact Int.le_floor.mpr (by exact_mod_cast hcD)
  · rw [hppD]
    have h1 : (⌊D⌋ : ℝ) ≤ 4000 := le_trans (Int.floor_le D) hD4
    exact_mod_cast h1

theorem applyPerson_mem (d : PersonDraw) (f : Field)
    (hd : 400 ≤ d.dist ∧ d.dist ≤ 1200) (hf : FieldInRange f) :
    FieldInRange (applyPerson d f) := by
  intro i j
  unfold applyPerson
  split
  · rcases eq_or_ne i d.target with rfl | hne
    · rw [Function.update_same]
      have hb := personPixel_bounds d.dist d.width j (by linarith [hd.1]) (by linarith [hd.2])
      constructor
      · have : (50 : ℤ) ≤ personPixel d.dist d.width j := le_trans (by linarith [hd.1]) hb.1
        exact_mod_cast this
      · exact_mod_cast hb.2
    · rw [Function.update_noteq hne]
      exact hf i j
  · exact hf i j

theorem simTick_field_mem (d : TickDraws) (st : SimState)
    (hd : TickDrawsOK d) :
    FieldInRange (simTick d st).field := by
  have hstep : FieldInRange (obstacleStep d.sensors st.field) := by
    intro i j
    exact sensorTick_mem (d.sensors i) (st.field i)
      ⟨(hd.1 i).1, (hd.1 i).2.1⟩ ⟨(hd.1 i).2.2.1, (hd.1 i).2.2.2⟩ j
  exact applyPerson_mem d.person _ hd.2 hstep

/- ------------------------------------------------------------------ -/
/- C3: obstacle field containment                                      -/
/- ------------------------------------------------------------------ -/

/-- C3: from a field whose 40 cells all lie in [50, 4000], after any
number of ticks — per-pixel clamped steps, per-sensor spike reassignments
into [50, 299] or [1500, 4000], and person injections with centre distance
in [400, 1200] — every cell still lies in [50, 4000]. -/
theorem field_range_invariant (ds : List TickDraws) (st : SimState)
    (hds : ∀ d ∈ ds, TickDrawsOK d) (hst : FieldInRange st.field) :
    FieldInRange (simRun ds st).field := by
  induction ds generalizing st with
  | nil => exact hst
  | cons d rest ih =>
      have h1 : FieldInRange (simTick d st).field :=
        simTick_field_mem d st (hds d (by simp))
      have : simRun (d :: rest) st = simRun rest (simTick d st) := rfl
      rw [this]
      exact ih (simTick d st) (fun t ht => hds t (by simp [ht])) h1

noncomputable def exTick : TickDraws :=
  { angleStep := 1
    sensors := fun _ =>
      { steps := fun _ => -20, spikeP := 0, spikePix := 0,
        spikeNear := 100, spikeFar := 2000 }
    person := { personP := 0, target := 2, dist := 700, width := 2 } }

theorem field_range_invariant_witness :
    FieldInRange (simRun [exTick] initState).field :=
  field_range_invariant [exTick] initState
    (by intro d hd; simp at hd; subst hd; constructor
        · intro i
          refine ⟨by norm_num [exTick], by norm_num [exTick], by norm_num [exTick],
            by norm_num [exTick]⟩
        · exact ⟨by norm_num [exTick], by norm_num [exTick]⟩)
    (by intro i j; exact ⟨by norm_num [initState], by norm_num [initState]⟩)

/- ------------------------------------------------------------------ -/
/- C4: spike event granularity                                         -/
/- ------------------------------------------------------------------ -/

/-- Concrete draws exhibiting two spikes in one tick: every sensor's
spike-probability draw is 0 (< 0.02), all per-pixel steps are 0. -/
def exSpikeDraws : Fin 5 → SensorDraw := fun _ =>
  { steps := fun _ => 0, spikeP := 0, spikePix := 0,
    spikeNear := 100, spikeFar := 2000 }

/-- The all-4000 field. -/
def exField : Field := fun _ _ => 4000

/-- C4 counterexample: in a single tick, sensor 0's pixel 0 and sensor
1's pixel 0 are both reassigned by the spike event (both to 100, while
their per-pixel-stepped values are 4000), so more than one cell of the
field is spiked in one tick — the spike event is per sensor, not at most
once over the whole field. -/
theorem spike_two_cells_in_one_tick :
    obstacleStep exSpikeDraws exField 0 0 = 100 ∧
    obstacleStep exSpikeDraws exField 1 0 = 100 ∧
    stepSensor (exSpikeDraws 0) (exField 0) 0 = 4000 ∧
    stepSensor (exSpikeDraws 1) (exField 1) 0 = 4000 := by
  refine ⟨?_, ?_, ?_, ?_⟩ <;>
    norm_num [obstacleStep, sensorTick, spikeSensor, stepSensor, clampDist,
      exSpikeDraws, exField, Function.update_same]

/-- C4 (amended): the spike event is applied per sensor, at most once per
sensor per tick: each of the 5 sensors, independently, when its
probability draw is below 0.02, has exactly the drawn one of its own 8
pixels reassigned — to the near value if that pixel's post-step distance
exceeds 1000 and to the far value otherwise — and all its other pixels
keep their per-pixel-stepped values; with the draw at or above 0.02 the
sensor keeps all its stepped values.  Hence at most 5 cells per tick (one
per sensor) are spiked. -/
theorem spike_per_sensor_characterisation (ds : Fin 5 → SensorDraw) (f : Field)
    (i : Fin 5) (j : Fin 8) :
    obstacleStep ds f i j =
      if (ds i).spikeP < 1 / 50 ∧ j = (ds i).spikePix then
        (if 1000 < stepSensor (ds i) (f i) (ds i).spikePix
          then ((ds i).spikeNear : ℚ) else ((ds i).spikeFar : ℚ))
      else stepSensor (ds i) (f i) j := by
  unfold obstacleStep sensorTick spikeSensor
  by_cases hp : (ds i).spikeP < 1 / 50
  · rw [if_pos hp]
    rcases eq_or_ne j (ds i).spikePix with rfl | hne
    · rw [Function.update_same]
      have hc : (ds i).spikeP < 1 / 50 ∧ (ds i).spikePix = (ds i).spikePix := ⟨hp, rfl⟩
      rw [if_pos hc]
    · rw [Function.update_noteq hne, if_neg (fun h => hne h.2)]
  · rw [if_neg hp, if_neg (fun h => hp h.1)]

/- ------------------------------------------------------------------ -/
/- The stand-alone person injection with Python error semantics        -/
/- ------------------------------------------------------------------ -/

/-- The exceptions a call of `simulate_person_obstacle` can raise:
float division by zero (when `2 * w ** 2 == 0`, line 400) and list index
out of range (line 402). -/
inductive PyErr
  | zeroDivisionError
  | indexError
  deriving DecidableEq

/-- Python list-indexing semantics for `self._last_sim_distances`, a list
of length 5: indices 0..4 are direct, -5..-1 wrap to `idx + 5`, anything
else raises IndexError. -/
def pyIdx (idx : ℤ) : Option (Fin 5) :=
  if h : 0 ≤ idx ∧ idx < 5 then some ⟨idx.toNat, by omega⟩
  else if h2 : -5 ≤ idx ∧ idx < 0 then some ⟨(idx + 5).toNat, by omega⟩
  else none

/-- One loop iteration of `simulate_person_obstacle` (lines 398-402) at
pixel `j`: computing the exponent raises ZeroDivisionError when `w = 0`;
the write raises IndexError when the sensor index is invalid; otherwise
pixel `j` of the indexed sensor is overwritten with `int(dist)`. -/
noncomputable def injectStep (idx : ℤ) (c : ℤ) (w : ℝ) (j : Fin 8) (f : Field) :
    Field × Option PyErr :=
  if w = 0 then (f, some PyErr.zeroDivisionError)
  else
    match pyIdx idx with
    | none => (f, some PyErr.indexError)
    | some i =>
        (Function.update f i
          (Function.update (f i) j ((personPixel c w (j : ℕ) : ℤ) : ℚ)), none)

/-- The `for j in range(8)` loop of `simulate_person_obstacle`: iterate
`injectStep`; on an exception the loop stops and the writes made so far
persist (Python exceptions do not roll back assignments). -/
noncomputable def injectLoop (idx : ℤ) (c : ℤ) (w : ℝ) :
    List (Fin 8) → Field → Field × Option PyErr
  | [], f => (f, none)
  | j :: js, f =>
      match injectStep idx c w j f with
      | (f1, none) => injectLoop idx c w js f1
      | (f1, some e) => (f1, some e)

/-- `simulate_person_obstacle(sensor_index, distance_to_person,
shoulder_width_pixels)` acting on the dashboard state: runs the pixel
loop over `j = 0..7`; `_last_sim_angle` is never touched. -/
noncomputable def simulatePersonObstacle (idx : ℤ) (c : ℤ) (w : ℝ) (st : SimState) :
    SimState × Option PyErr :=
  ({ angle := st.angle, field := (injectLoop idx c w (List.finRange 8) st.field).1 },
   (injectLoop idx c w (List.finRange 8) st.field).2)

theorem injectLoop_zeroDiv (idx : ℤ) (c : ℤ) (w : ℝ) (hw : w = 0)
    (j : Fin 8) (js : List (Fin 8)) (f : Field) :
    injectLoop idx c w (j :: js) f = (f, some PyErr.zeroDivisionError) := by
  unfold injectLoop injectStep
  rw [if_pos hw]

theorem injectLoop_badIdx (idx : ℤ) (c : ℤ) (w : ℝ) (hw : w ≠ 0)
    (hidx : pyIdx idx = none) (j : Fin 8) (js : List (Fin 8)) (f : Field) :
    injectLoop idx c w (j :: js) f = (f, some PyErr.indexError) := by
  unfold injectLoop injectStep
  rw [if_neg hw, hidx]

/-- The cumulative effect of the successful loop: after visiting the
pixels in `js`, the target row holds the profile at the visited pixels
and everything else is unchanged. -/
theorem injectLoop_ok (idx : ℤ) (c : ℤ) (w : ℝ) (i : Fin 5) (hw : w ≠ 0)
    (hidx : pyIdx idx = some i) (js : List (Fin 8)) (f : Field) :
    injectLoop idx c w js f =
      (fun i' => if i' = i then
          (fun j => if j ∈ js then ((personPixel c w (j : ℕ) : ℤ) : ℚ) else f i j)
        else f i', none) := by
  induction js generalizing f with
  | nil =>
      unfold injectLoop
      refine Prod.ext ?_ rfl
      funext i'
      by_cases hi : i' = i
      · subst hi
        simp
      · simp [hi]
  | cons j0 js ih =>
      unfold injectLoop injectStep
      rw [if_neg hw, hidx]
      dsimp only
      rw [ih]
      refine Prod.ext ?_ rfl
      funext i'
      by_cases hi : i' = i
      · subst hi
        simp only [if_pos rfl]
        funext j
        by_cases hj : j ∈ js
        · simp [hj]
        · by_cases hj0 : j = j0
          · subst hj0
            simp [hj, Function.update_same]
          · simp [hj, hj0, Function.update_noteq,
              Function.update_noteq (fun h : j = j0 => hj0 h)]
      · simp only [if_neg hi]
        rw [Function.update_noteq hi]

/- ------------------------------------------------------------------ -/
/- C6: error behaviour of the person injection                         -/
/- ------------------------------------------------------------------ -/

theorem personPixel_400_neg1_3_le : personPixel 400 (-1) 3 ≤ 850 := by
  have harg : -((((3 : ℕ) : ℝ) - 3.5) ^ 2) / (2 * (-1 : ℝ) ^ 2) = -(1 / 8) := by
    push_cast
    norm_num
  have he : (7 : ℝ) / 8 ≤ Real.exp (-(1 / 8)) := by
    have h := Real.add_one_le_exp (-(1 / 8) : ℝ)
    linarith
  have he1 : Real.exp (-(1 / 8) : ℝ) ≤ 1 := Real.exp_le_one_iff.mpr (by norm_num)
  unfold personPixel
  rw [harg]
  have h0 : (0 : ℝ) ≤ ((400 : ℤ) : ℝ) + ((4000 : ℝ) - ((400 : ℤ) : ℝ)) *
      (1 - Real.exp (-(1 / 8))) := by
    push_cast
    nlinarith [he1]
  rw [pyInt_eq_floor h0]
  have hD : ((400 : ℤ) : ℝ) + ((4000 : ℝ) - ((400 : ℤ) : ℝ)) *
      (1 - Real.exp (-(1 / 8))) ≤ 850 := by
    push_cast
    nlinarith [he]
  have hfl := le_trans
    (Int.floor_le (((400 : ℤ) : ℝ) + ((4000 : ℝ) - ((400 : ℤ) : ℝ)) *
      (1 - Real.exp (-(1 / 8))))) hD
  exact_mod_cast hfl

/-- C6 counterexample: `simulate_person_obstacle(0, 400, -1)` has a
non-positive spread, yet the call is not rejected: it raises no error
(second component `none`) and it mutates the field (cell (0,3) drops
from 4000 to at most 850), refuting both the InvalidParameter rejection
and the rejected-before-mutation guarantee. -/
theorem inject_negative_spread_not_rejected :
    (simulatePersonObstacle 0 400 (-1) initState).2 = none ∧
    (simulatePersonObstacle 0 400 (-1) initState).1.field 0 3 ≤ 850 ∧
    initState.field 0 3 = 4000 := by
  have hw : (-1 : ℝ) ≠ 0 := by norm_num
  have hidx : pyIdx 0 = some 0 := rfl
  unfold simulatePersonObstacle
  rw [injectLoop_ok 0 400 (-1) 0 hw hidx]
  refine ⟨rfl, ?_, rfl⟩
  have h3 : (3 : Fin 8) ∈ List.finRange 8 := List.mem_finRange _
  simp only [if_pos rfl, h3, if_true]
  have := personPixel_400_neg1_3_le
  exact_mod_cast this

/-- C6 (amended): a call with `spread_pixels = 0` fails with
ZeroDivisionError (not InvalidParameter); a call whose sensor index is
outside [-5, 5) fails with IndexError (an index in [-5, -1] wraps to
sensor `idx + 5` instead of being rejected); a negative spread is not
rejected at all; and on every call that does fail, the failure happens
before any write, so the field and the tilt angle are exactly as before
the call. -/
theorem inject_failure_before_mutation (idx : ℤ) (c : ℤ) (w : ℝ) (st : SimState) :
    (w = 0 → simulatePersonObstacle idx c w st = (st, some PyErr.zeroDivisionError)) ∧
    (w ≠ 0 → pyIdx idx = none →
      simulatePersonObstacle idx c w st = (st, some PyErr.indexError)) ∧
    (∀ e : PyErr, (simulatePersonObstacle idx c w st).2 = some e →
      (simulatePersonObstacle idx c w st).1 = st) := by
  have hfr : List.finRange 8 = 0 :: [1, 2, 3, 4, 5, 6, 7] := by decide
  refine ⟨?_, ?_, ?_⟩
  · intro hw
    unfold simulatePersonObstacle
    rw [hfr, injectLoop_zeroDiv idx c w hw]
  · intro hw hidx
    unfold simulatePersonObstacle
    rw [hfr, injectLoop_badIdx idx c w hw hidx]
  · intro e he
    by_cases hw : w = 0
    · unfold simulatePersonObstacle
      rw [hfr, injectLoop_zeroDiv idx c w hw]
    · cases hidx : pyIdx idx with
      | none =>
          unfold simulatePersonObstacle
          rw [hfr, injectLoop_badIdx idx c w hw hidx]
      | some i =>
          exfalso
          unfold simulatePersonObstacle at he
          rw [injectLoop_ok idx c w i hw hidx] at he
          exact Option.noConfusion he

theorem inject_failure_before_mutation_witness :
    simulatePersonObstacle 0 400 0 initState = (initState, some PyErr.zeroDivisionError) ∧
    simulatePersonObstacle 9 400 1 initState = (initState, some PyErr.indexError) :=
  ⟨(inject_failure_before_mutation 0 400 0 initState).1 rfl,
   (inject_failure_before_mutation 9 400 1 initState).2.1 (by norm_num) rfl⟩

/- ------------------------------------------------------------------ -/
/- C9: frame effect of a valid person injection                        -/
/- ------------------------------------------------------------------ -/

/-- C9: a person injection with a sensor index in [0, 5) (and a spread
for which the call completes, i.e. nonzero) raises no error, writes all
8 pixels of exactly that sensor with the Gaussian profile, and changes
nothing else: the other four sensors' 32 cells and the tilt angle are
exactly as before the call. -/
theorem inject_frame_effect (idx : ℤ) (c : ℤ) (w : ℝ) (st : SimState)
    (h0 : 0 ≤ idx) (h5 : idx < 5) (hw : w ≠ 0) :
    (simulatePersonObstacle idx c w st).2 = none ∧
    (simulatePersonObstacle idx c w st).1.angle = st.angle ∧
    (∀ j : Fin 8,
      (simulatePersonObstacle idx c w st).1.field ⟨idx.toNat, by omega⟩ j =
        ((personPixel c w (j : ℕ) : ℤ) : ℚ)) ∧
    (∀ i : Fin 5, (i : ℤ) ≠ idx → ∀ j : Fin 8,
      (simulatePersonObstacle idx c w st).1.field i j = st.field i j) := by
  have hidx : pyIdx idx = some ⟨idx.toNat, by omega⟩ := by
    unfold pyIdx
    rw [dif_pos ⟨h0, h5⟩]
  unfold simulatePersonObstacle
  rw [injectLoop_ok idx c w _ hw hidx]
  refine ⟨rfl, rfl, ?_, ?_⟩
  · intro j
    simp [List.mem_finRange]
  · intro i hi j
    have hne : i ≠ (⟨idx.toNat, by omega⟩ : Fin 5) := by
      intro h
      apply hi
      rw [h]
      push_cast
      omega
    simp [hne]

theorem inject_frame_effect_witness :
    (simulatePersonObstacle 2 400 2 initState).2 = none ∧
    (simulatePersonObstacle 2 400 2 initState).1.angle = initState.angle ∧
    (∀ j : Fin 8,
      (simulatePersonObstacle 2 400 2 initState).1.field ⟨(2 : ℤ).toNat, by omega⟩ j =
        ((personPixel 400 2 (j : ℕ) : ℤ) : ℚ)) ∧
    (∀ i : Fin 5, (i : ℤ) ≠ 2 → ∀ j : Fin 8,
      (simulatePersonObstacle 2 400 2 initState).1.field i j = initState.field i j) :=
  inject_frame_effect 2 400 2 initState (by norm_num) (by norm_num) (by norm_num)

/- ------------------------------------------------------------------ -/
/- C10: person pixels never closer than the centre distance            -/
/- ------------------------------------------------------------------ -/

/-- C10: for every integer centre distance in [50, 4000] and positive
spread, each of the 8 pixel values produced by a person injection lies
in [centre, 4000] even after truncation to integer millimetres. -/
theorem person_pixel_range (c : ℤ) (w : ℝ) (j : ℕ)
    (hc1 : 50 ≤ c) (hc2 : c ≤ 4000) (_hw : 0 < w) (_hj : j < 8) :
    c ≤ personPixel c w j ∧ personPixel c w j ≤ 4000 :=
  personPixel_bounds c w j (by omega) hc2

theorem person_pixel_range_witness :
    (400 : ℤ) ≤ personPixel 400 2 0 ∧ personPixel 400 2 0 ≤ 4000 :=
  person_pixel_range 400 2 0 (by norm_num) (by norm_num) (by norm_num) (by norm_num)

/- ------------------------------------------------------------------ -/
/- C5: shape of the Gaussian person profile                            -/
/- ------------------------------------------------------------------ -/

theorem exp_neg_ge_sq {x : ℝ} (_h0 : 0 ≤ x) (h2 : x ≤ 2) :
    (1 - x / 2) ^ 2 ≤ Real.exp (-x) := by
  have h1 : 1 - x / 2 ≤ Real.exp (-(x / 2)) := by
    have h := Real.add_one_le_exp (-(x / 2))
    linarith
  have hnn : (0 : ℝ) ≤ 1 - x / 2 := by linarith
  have hsq : (1 - x / 2) ^ 2 ≤ (Real.exp (-(x / 2))) ^ 2 := pow_le_pow_left₀ hnn h1 2
  have hx : (Real.exp (-(x / 2))) ^ 2 = Real.exp (-x) := by
    rw [sq, ← Real.exp_add]
    ring_nf
  rw [hx] at hsq
  exact hsq

theorem exp_neg_le_inv_sq {x : ℝ} (h0 : 0 ≤ x) :
    Real.exp (-x) ≤ ((1 + x / 2) ^ 2)⁻¹ := by
  have h1 : 1 + x / 2 ≤ Real.exp (x / 2) := by
    have h := Real.add_one_le_exp (x / 2)
    linarith
  have hpos : (0 : ℝ) < 1 + x / 2 := by linarith
  have hsq : (1 + x / 2) ^ 2 ≤ Real.exp x := by
    have h := pow_le_pow_left₀ hpos.le h1 2
    have hx : (Real.exp (x / 2)) ^ 2 = Real.exp x := by
      rw [sq, ← Real.exp_add]
      ring_nf
    rw [hx] at h
    exact h
  rw [Real.exp_neg]
  exact inv_anti₀ (by positivity) hsq

theorem floor_lt_floor_of_gap {a b : ℝ} (h : a + 1 ≤ b) : ⌊a⌋ < ⌊b⌋ := by
  have h1 : (⌊a⌋ + 1 : ℤ) ≤ ⌊b⌋ := Int.le_floor.mpr (by push_cast; linarith [Int.floor_le a])
  omega

theorem personPixel_400_2_eq (j : ℕ) (q : ℝ)
    (h : -(((j : ℝ) - 3.5) ^ 2) / (2 * (2 : ℝ) ^ 2) = q) (hq : q ≤ 0) :
    personPixel 400 2 j = ⌊(400 : ℝ) + 3600 * (1 - Real.exp q)⌋ := by
  unfold personPixel
  rw [h]
  have he1 : Real.exp q ≤ 1 := Real.exp_le_one_iff.mpr hq
  have h0 : (0 : ℝ) ≤ ((400 : ℤ) : ℝ) + ((4000 : ℝ) - ((400 : ℤ) : ℝ)) *
      (1 - Real.exp q) := by
    push_cast
    nlinarith [he1]
  rw [pyInt_eq_floor h0]
  norm_num

/-- C5: the 8-pixel profile of a person injection with centre distance
400 and spread 2.0 is exactly symmetric about pixel 3.5 (pixel j equals
pixel 7 - j) and, even after truncation to integer millimetres, the
distances strictly increase moving away from the centre in both
directions. -/
theorem person_profile_shape :
    personPixel 400 2 0 = personPixel 400 2 7 ∧
    personPixel 400 2 1 = personPixel 400 2 6 ∧
    personPixel 400 2 2 = personPixel 400 2 5 ∧
    personPixel 400 2 3 = personPixel 400 2 4 ∧
    personPixel 400 2 3 < personPixel 400 2 2 ∧
    personPixel 400 2 2 < personPixel 400 2 1 ∧
    personPixel 400 2 1 < personPixel 400 2 0 ∧
    personPixel 400 2 4 < personPixel 400 2 5 ∧
    personPixel 400 2 5 < personPixel 400 2 6 ∧
    personPixel 400 2 6 < personPixel 400 2 7 := by
  have p0 := personPixel_400_2_eq 0 (-(49 / 32)) (by push_cast; norm_num) (by norm_num)
  have p1 := personPixel_400_2_eq 1 (-(25 / 32)) (by push_cast; norm_num) (by norm_num)
  have p2 := personPixel_400_2_eq 2 (-(9 / 32)) (by push_cast; norm_num) (by norm_num)
  have p3 := personPixel_400_2_eq 3 (-(1 / 32)) (by push_cast; norm_num) (by norm_num)
  have p4 := personPixel_400_2_eq 4 (-(1 / 32)) (by push_cast; norm_num) (by norm_num)
  have p5 := personPixel_400_2_eq 5 (-(9 / 32)) (by push_cast; norm_num) (by norm_num)
  have p6 := personPixel_400_2_eq 6 (-(25 / 32)) (by push_cast; norm_num) (by norm_num)
  have p7 := personPixel_400_2_eq 7 (-(49 / 32)) (by push_cast; norm_num) (by norm_num)
  have l1 : (3969 / 4096 : ℝ) ≤ Real.exp (-(1 / 32)) := by
    have h := @exp_neg_ge_sq (1 / 32) (by norm_num) (by norm_num)
    have he : ((1 : ℝ) - (1 / 32) / 2) ^ 2 = 3969 / 4096 := by norm_num
    linarith [h, he.symm.le, he.le]
  have l2 : (3025 / 4096 : ℝ) ≤ Real.exp (-(9 / 32)) := by
    have h := @exp_neg_ge_sq (9 / 32) (by norm_num) (by norm_num)
    have he : ((1 : ℝ) - (9 / 32) / 2) ^ 2 = 3025 / 4096 := by norm_num
    linarith [h, he.symm.le, he.le]
  have l3 : (1521 / 4096 : ℝ) ≤ Real.exp (-(25 / 32)) := by
    have h := @exp_neg_ge_sq (25 / 32) (by norm_num) (by norm_num)
    have he : ((1 : ℝ) - (25 / 32) / 2) ^ 2 = 1521 / 4096 := by norm_num
    linarith [h, he.symm.le, he.le]
  have u2 : Real.exp (-(9 / 32)) ≤ (4096 / 5329 : ℝ) := by
    have h := @exp_neg_le_inv_sq (9 / 32) (by norm_num)
    have he : (((1 : ℝ) + (9 / 32) / 2) ^ 2)⁻¹ = 4096 / 5329 := by norm_num
    linarith [h, he.le, he.symm.le]
  have u1 : Real.exp (-(25 / 32)) ≤ (4096 / 7921 : ℝ) := by
    have h := @exp_neg_le_inv_sq (25 / 32) (by norm_num)
    have he : (((1 : ℝ) + (25 / 32) / 2) ^ 2)⁻¹ = 4096 / 7921 := by norm_num
    linarith [h, he.le, he.symm.le]
  have u0 : Real.exp (-(49 / 32)) ≤ (4096 / 12769 : ℝ) := by
    have h := @exp_neg_le_inv_sq (49 / 32) (by norm_num)
    have he : (((1 : ℝ) + (49 / 32) / 2) ^ 2)⁻¹ = 4096 / 12769 := by norm_num
    linarith [h, he.le, he.symm.le]
  refine ⟨?_, ?_, ?_, ?_, ?_, ?_, ?_, ?_, ?_, ?_⟩
  · rw [p0, p7]
  · rw [p1, p6]
  · rw [p2, p5]
  · rw [p3, p4]
  · rw [p3, p2]
    exact floor_lt_floor_of_gap (by linarith [l1, u2])
  · rw [p2, p1]
    exact floor_lt_floor_of_gap (by linarith [l2, u1])
  · rw [p1, p0]
    exact floor_lt_floor_of_gap (by linarith [l3, u0])
  · rw [p4, p5]
    exact floor_lt_floor_of_gap (by linarith [l1, u2])
  · rw [p5, p6]
    exact floor_lt_floor_of_gap (by linarith [l2, u1])
  · rw [p6, p7]
    exact floor_lt_floor_of_gap (by linarith [l3, u0])

/- ------------------------------------------------------------------ -/
/- C7: determinism of the generator given its draws                    -/
/- ------------------------------------------------------------------ -/

/-- C7 (statable part): the tick function is a pure function of the
previous state and the tick's random draws, so two runs fed equal draw
sequences from equal initial states produce identical state traces
(tilt angles and obstacle fields).  The interface half of the claim —
that `simulate_data` accepts an injectable random source — is refuted by
the source itself, which draws from the ambient global `random` module. -/
theorem generator_deterministic (d1 d2 : List TickDraws) (s1 s2 : SimState)
    (hd : d1 = d2) (hs : s1 = s2) :
    simTrace d1 s1 = simTrace d2 s2 := by
  rw [hd, hs]

theorem generator_deterministic_witness :
    simTrace [] initState = simTrace [] initState :=
  generator_deterministic [] [] initState initState rfl rfl

/- ------------------------------------------------------------------ -/
/- C8: integrality of stored cell values                               -/
/- ------------------------------------------------------------------ -/

/-- The draws of a tick in which cell (0,0) receives the per-pixel
perturbation -24.7 (i.e. `random.random() = 0.253`), no other cell
moves, and no spike fires. -/
def exFracStepDraw : SensorDraw :=
  { steps := fun j => if j = 0 then -247 / 10 else 0, spikeP := 1, spikePix := 0,
    spikeNear := 100, spikeFar := 2000 }

/-- C8 failing-input evaluation: one per-pixel step from the initial
all-4000 field with perturbation -24.7 stores 3975.3 in cell (0,0) — a
value with denominator 10, not an integer.  The claim that all stored
cell values are integers after each tick's updates fails on the
per-pixel step, which adds a float without truncating. -/
theorem cell_not_integer_after_step :
    sensorTick exFracStepDraw (fun _ => 4000) 0 = 39753 / 10 ∧
    ∀ n : ℤ, sensorTick exFracStepDraw (fun _ => 4000) 0 ≠ (n : ℚ) := by
  have h : sensorTick exFracStepDraw (fun _ => 4000) 0 = 39753 / 10 := by
    norm_num [sensorTick, spikeSensor, stepSensor, clampDist, exFracStepDraw]
  refine ⟨h, ?_⟩
  intro n hn
  rw [h] at hn
  have h10 : (39753 : ℚ) = (n : ℚ) * 10 := by
    field_simp at hn
    linarith [hn]
  have hz : (39753 : ℤ) = n * 10 := by exact_mod_cast h10
  omega

end Srader
